import Mathlib

/-!
Verification of the terraform-plan-reviewer core (src/lib/PlanReviewer.js).

The JavaScript code is shallowly embedded: JS values become the inductive
type `Val`, JS objects are ordered association lists with unique-key update
semantics, thrown JS exceptions become the `Except JsErr` monad, and
`console.log` output is accumulated as a `List String`.  External npm
dependencies (`deepmerge`, `deep-eql`) and JS built-ins (`JSON.parse`,
`JSON.stringify`, `String.prototype.replace`) are modelled from their
documented behaviour, as noted on each definition.
-/

/-- A JavaScript value as it occurs in a parsed Terraform plan: `null`,
`undefined`, booleans, numbers (modelled as integers; the plans under
consideration carry no fractional numbers), strings, arrays, and objects
as ordered field lists. -/
inductive Val where
  | vnull : Val
  | vundefined : Val
  | vbool (b : Bool) : Val
  | vnum (n : Int) : Val
  | vstr (s : String) : Val
  | varr (xs : List Val) : Val
  | vobj (fields : List (String × Val)) : Val
deriving Repr

/-- JS errors thrown by the embedded code: `throw new Error(msg)`,
`TypeError` (property access on null/undefined and similar), and
`ReferenceError` (reading an undeclared identifier in strict mode). -/
inductive JsErr where
  | thrown (msg : String) : JsErr
  | typeError : JsErr
  | referenceError : JsErr
deriving Repr, DecidableEq

mutual

/-- Strict equality test on `Val` (JS `===` restricted to the value world:
two structurally identical pure values compare equal). -/
def valBeq : Val → Val → Bool
  | .vnull, .vnull => true
  | .vundefined, .vundefined => true
  | .vbool a, .vbool b => a == b
  | .vnum a, .vnum b => a == b
  | .vstr a, .vstr b => a == b
  | .varr a, .varr b => valListBeq a b
  | .vobj a, .vobj b => valFieldsBeq a b
  | _, _ => false

def valListBeq : List Val → List Val → Bool
  | [], [] => true
  | a :: as, b :: bs => valBeq a b && valListBeq as bs
  | _, _ => false

def valFieldsBeq : List (String × Val) → List (String × Val) → Bool
  | [], [] => true
  | (k, v) :: as, (k2, v2) :: bs => k == k2 && valBeq v v2 && valFieldsBeq as bs
  | _, _ => false

end

instance : BEq Val := ⟨valBeq⟩

/-- First-match lookup in an object's field list (JS property read on a
plain object), `undefined` when the key is absent. -/
def objGetD (fs : List (String × Val)) (k : String) : Val :=
  match fs.find? (fun f => f.1 == k) with
  | some f => f.2
  | none => .vundefined

/-- JS object property write: an existing key keeps its position, a new
key is appended (insertion order, as `Object.keys` observes it). -/
def objSet : List (String × Val) → String → Val → List (String × Val)
  | [], k, v => [(k, v)]
  | f :: fs, k, v => if f.1 == k then (k, v) :: fs else f :: objSet fs k v

/-- Value of a run of decimal digit characters. -/
def digitsToNat (ds : List Char) : Nat :=
  ds.foldl (fun n c => n * 10 + (c.toNat - '0'.toNat)) 0

/-- A canonical decimal array-index string ("0", "1", ..., no leading
zeros), as JS array indexing recognises it. -/
def strToIndex? (str : String) : Option Nat :=
  match str.data with
  | [] => none
  | ['0'] => some 0
  | c :: rest =>
    if c != '0' && (c :: rest).all Char.isDigit then some (digitsToNat (c :: rest)) else none

/-- Property access `v[k]` where the base may be `null`/`undefined`
(then JS throws a TypeError).  Arrays answer canonical numeric keys;
other primitives answer `undefined`. -/
def propAccess (v : Val) (k : String) : Except JsErr Val :=
  match v with
  | .vnull => .error .typeError
  | .vundefined => .error .typeError
  | .vobj fs => .ok (objGetD fs k)
  | .varr xs =>
    .ok (match strToIndex? k with
         | some i => xs.getD i .vundefined
         | none => .vundefined)
  | _ => .ok .vundefined

/-- Total property access for bases already known to be non-null. -/
def propAccessD (v : Val) (k : String) : Val :=
  match v with
  | .vobj fs => objGetD fs k
  | .varr xs =>
    (match strToIndex? k with
     | some i => xs.getD i .vundefined
     | none => .vundefined)
  | _ => .vundefined

/-- JS loose `== null` test: true exactly for `null` and `undefined`. -/
def looseNull (v : Val) : Bool :=
  valBeq v .vnull || valBeq v .vundefined

/-- The string produced by JS `typeof`. -/
def typeofStr : Val → String
  | .vundefined => "undefined"
  | .vbool _ => "boolean"
  | .vnum _ => "number"
  | .vstr _ => "string"
  | _ => "object"

/-- PlanReviewer.isObject: `typeof x == "object" && !Array.isArray(x)`
(note that JS `null` satisfies it). -/
def isObject : Val → Bool
  | .vnull => true
  | .vobj _ => true
  | _ => false

/-- PlanReviewer.isEmptyObject: a non-array object with no enumerable
keys.  In the source every call site has already ruled out `null`
(whose `Object.keys` would throw), so the `null` case is immaterial. -/
def isEmptyObject : Val → Bool
  | .vobj [] => true
  | _ => false

/-- `Object.keys` on a non-null value: field names of an object, index
strings of an array or string, empty for primitives. -/
def jsKeys : Val → List String
  | .vobj fs => fs.map Prod.fst
  | .varr xs => (List.range xs.length).map toString
  | .vstr s => (List.range s.length).map toString
  | _ => []

/-- `Object.keys` including the TypeError thrown on null/undefined. -/
def jsKeysE (v : Val) : Except JsErr (List String) :=
  match v with
  | .vnull => .error .typeError
  | .vundefined => .error .typeError
  | _ => .ok (jsKeys v)

mutual

/-- JS `String(v)` coercion: how a value renders inside a template
literal (arrays join their elements with commas, objects become
"[object Object]"). -/
def jsToString : Val → String
  | .vnull => "null"
  | .vundefined => "undefined"
  | .vbool true => "true"
  | .vbool false => "false"
  | .vnum n => toString n
  | .vstr s => s
  | .varr xs => String.intercalate "," (jsToStringElems xs)
  | .vobj _ => "[object Object]"

/-- Array elements for `Array.prototype.toString`: null/undefined render
as the empty string. -/
def jsToStringElems : List Val → List String
  | [] => []
  | .vnull :: xs => "" :: jsToStringElems xs
  | .vundefined :: xs => "" :: jsToStringElems xs
  | x :: xs => jsToString x :: jsToStringElems xs

end

mutual

/-- Modelled from the spec: the external deep-eql dependency
(`this.DEEPEQUAL`), whose code is not part of this repository.  Deep
structural equality: arrays compare element-wise in order, objects
compare as key sets with recursively equal values, primitives compare
strictly. -/
def deepEql : Val → Val → Bool
  | .varr xs, .varr ys => deepEqlList xs ys
  | .vobj fs, .vobj gs =>
    deepEqlFields fs gs && (gs.map Prod.fst).all (fun k => (fs.map Prod.fst).contains k)
  | a, b => valBeq a b

def deepEqlList : List Val → List Val → Bool
  | [], [] => true
  | a :: as, b :: bs => deepEql a b && deepEqlList as bs
  | _, _ => false

def deepEqlFields : List (String × Val) → List (String × Val) → Bool
  | [], _ => true
  | (k, v) :: fs, gs =>
    (match (gs.find? (fun g => g.1 == k)) with
     | some g => deepEql v g.2
     | none => false) && deepEqlFields fs gs

end

/-- A value the deepmerge library treats as mergeable: a plain object or
an array. -/
def isMergeableVal : Val → Bool
  | .vobj _ => true
  | .varr _ => true
  | _ => false

/-- Does the field list carry the key (`key in target`)? -/
def hasField (fs : List (String × Val)) (k : String) : Bool :=
  (fs.map Prod.fst).contains k

mutual

/-- Modelled from the spec: the external deepmerge dependency
(`this.DEEPMERGE(target, source)`), whose code is not part of this
repository, at its documented default behaviour: two arrays are
concatenated, two plain objects are merged key-wise with the source's
leaf values taking precedence on collision (recursing when the source
value is itself mergeable), and in every other combination the source
value replaces the target (cloning is the identity on pure values;
the library's corner behaviour on a null source is simplified to the
same replacement rule and is never exercised by the claims below). -/
def deepmergeVal : Val → Val → Val
  | .varr ts, .varr ss => .varr (ts ++ ss)
  | _, .varr ss => .varr ss
  | .vobj ts, .vobj ss => .vobj (mergeFieldsVal ts ts ss)
  | _, s => s

/-- Key-wise object merge of deepmerge: walk the source fields updating
the destination; a shared key with a mergeable source value recurses. -/
def mergeFieldsVal (ts : List (String × Val)) :
    List (String × Val) → List (String × Val) → List (String × Val)
  | dest, [] => dest
  | dest, (k, sv) :: rest =>
    mergeFieldsVal ts
      (objSet dest k
        (if hasField ts k && isMergeableVal sv then deepmergeVal (objGetD ts k) sv else sv))
      rest

end

/-- Left-to-right, non-overlapping global replacement of the literal
character sequence `pat` by `rep` (the behaviour of a JS global-regex
replace whose pattern carries no metacharacters).  The fuel strictly
dominates the input length, so exhaustion is unreachable: every
recursive call consumes at least one input character. -/
def strReplaceChars : Nat → List Char → List Char → List Char → List Char
  | 0, _, _, l => l
  | _ + 1, _, _, [] => []
  | fuel + 1, pat, rep, c :: rest =>
    if !pat.isEmpty && pat.isPrefixOf (c :: rest) then
      rep ++ strReplaceChars fuel pat rep (List.drop pat.length (c :: rest))
    else
      c :: strReplaceChars fuel pat rep rest

/-- Modelled from the spec: JS `template.replace(new RegExp(pattern, "gm"),
value)` for the literal placeholder patterns the predictor builds
(variable names without regex metacharacters, replacement values without
dollar escape sequences). -/
def strReplaceAll (s pat rep : String) : String :=
  String.mk (strReplaceChars (s.data.length + 1) pat.data rep.data s.data)

/-- A JS whitespace character (the ASCII ones that occur here). -/
def isWsChar (c : Char) : Bool :=
  c = ' ' || c = '\t' || c = '\n' || c = '\r'

/-- JS `String.prototype.trim` restricted to ASCII whitespace. -/
def jsTrim (s : String) : String :=
  String.mk (((s.data.dropWhile isWsChar).reverse.dropWhile isWsChar).reverse)

/-- JS `String.prototype.padStart(n, " ")`. -/
def jsPadStart (s : String) (n : Nat) : String :=
  if s.length ≥ n then s else String.mk (List.replicate (n - s.length) ' ') ++ s

/-- JS `String.prototype.padEnd(n, " ")`. -/
def jsPadEnd (s : String) (n : Nat) : String :=
  if s.length ≥ n then s else s ++ String.mk (List.replicate (n - s.length) ' ')

/-- JS `String.prototype.startsWith` as a character-list prefix test. -/
def strStartsWith (s pat : String) : Bool :=
  pat.data.isPrefixOf s.data

/-- Occurrence scan behind the JS substring containment test
(`indexOf(pat) > -1`). -/
def strContainsChars (pat : List Char) : List Char → Bool
  | [] => pat.isEmpty
  | c :: rest => pat.isPrefixOf (c :: rest) || strContainsChars pat rest

/-- JS substring containment test (`indexOf(pat) > -1`). -/
def strContains (s pat : String) : Bool :=
  strContainsChars pat.data s.data

/-- JSON string escaping for the common escapes (quote, backslash,
newline, tab, carriage return); other characters pass through
unchanged. -/
def jsonQuote (s : String) : String :=
  "\"" ++ String.join (s.data.map fun c =>
    if c = '"' then "\\\""
    else if c = '\\' then "\\\\"
    else if c = '\n' then "\\n"
    else if c = '\t' then "\\t"
    else if c = '\r' then "\\r"
    else String.singleton c) ++ "\""

/-- The indentation prefix `JSON.stringify(_, null, 4)` uses at nesting
depth `n`. -/
def jsonIndent (n : Nat) : String :=
  String.mk (List.replicate (4 * n) ' ')

mutual

/-- Modelled from the spec: the JS built-in `JSON.stringify(v, null, 4)`
at nesting depth `depth`; `none` is the `undefined` result on an
unserialisable top value. -/
def jsonStringify (v : Val) (depth : Nat) : Option String :=
  match v with
  | .vundefined => none
  | .vnull => some "null"
  | .vbool b => some (if b then "true" else "false")
  | .vnum n => some (toString n)
  | .vstr s => some (jsonQuote s)
  | .varr [] => some "[]"
  | .varr (x :: xs) =>
    some ("[\n" ++ String.intercalate ",\n" (jsonStringifyArrItems (x :: xs) (depth + 1)) ++
          "\n" ++ jsonIndent depth ++ "]")
  | .vobj fs =>
    match jsonStringifyObjItems fs (depth + 1) with
    | [] => some "\x7b\x7d"
    | items =>
      some ("\x7b\n" ++ String.intercalate ",\n" items ++ "\n" ++ jsonIndent depth ++ "\x7d")

def jsonStringifyArrItems : List Val → Nat → List String
  | [], _ => []
  | x :: xs, d =>
    (jsonIndent d ++ (jsonStringify x d).getD "null") :: jsonStringifyArrItems xs d

def jsonStringifyObjItems : List (String × Val) → Nat → List String
  | [], _ => []
  | (k, v) :: fs, d =>
    match jsonStringify v d with
    | none => jsonStringifyObjItems fs d
    | some s => (jsonIndent d ++ jsonQuote k ++ ": " ++ s) :: jsonStringifyObjItems fs d

end

/-- `JSON.stringify` as interpolated into a template literal: the
`undefined` result prints as "undefined". -/
def jsonStringifyStr (v : Val) : String :=
  (jsonStringify v 0).getD "undefined"

/-- JSON whitespace skipping. -/
def jsonSkipWs : List Char → List Char
  | c :: rest =>
    if c = ' ' || c = '\t' || c = '\n' || c = '\r' then jsonSkipWs rest else c :: rest
  | [] => []

/-- Scan a JSON string literal body up to the closing quote, decoding
the common escapes; errors on unsupported escapes. -/
def jsonScanString : List Char → List Char → Except JsErr (String × List Char)
  | acc, '"' :: rest => .ok (String.mk acc.reverse, rest)
  | acc, '\\' :: e :: rest =>
    if e = '"' then jsonScanString ('"' :: acc) rest
    else if e = '\\' then jsonScanString ('\\' :: acc) rest
    else if e = '/' then jsonScanString ('/' :: acc) rest
    else if e = 'n' then jsonScanString ('\n' :: acc) rest
    else if e = 't' then jsonScanString ('\t' :: acc) rest
    else if e = 'r' then jsonScanString ('\r' :: acc) rest
    else .error (.thrown "Unsupported escape in JSON input")
  | _, '\\' :: [] => .error (.thrown "Unexpected end of JSON input")
  | acc, c :: rest => jsonScanString (c :: acc) rest
  | _, [] => .error (.thrown "Unexpected end of JSON input")

/-- Scan a run of decimal digits. -/
def jsonScanDigits : List Char → List Char → (List Char × List Char)
  | acc, c :: rest =>
    if c.isDigit then jsonScanDigits (c :: acc) rest else (acc.reverse, c :: rest)
  | acc, [] => (acc.reverse, [])

mutual

/-- Modelled from the spec: the JS built-in `JSON.parse`, restricted to
integer numerals (the plans under consideration carry no fractional
numbers); `fuel` strictly dominates the input length so exhaustion is
unreachable. -/
def jsonParseVal (fuel : Nat) (cs : List Char) : Except JsErr (Val × List Char) :=
  match fuel with
  | 0 => .error (.thrown "Unexpected end of JSON input")
  | fuel + 1 =>
    match jsonSkipWs cs with
    | 'n' :: 'u' :: 'l' :: 'l' :: rest => .ok (.vnull, rest)
    | 't' :: 'r' :: 'u' :: 'e' :: rest => .ok (.vbool true, rest)
    | 'f' :: 'a' :: 'l' :: 's' :: 'e' :: rest => .ok (.vbool false, rest)
    | '"' :: rest => do
      let (s, rest) ← jsonScanString [] rest
      .ok (.vstr s, rest)
    | '[' :: rest =>
      (match jsonSkipWs rest with
       | ']' :: rest2 => .ok (.varr [], rest2)
       | other => do
         let (xs, rest2) ← jsonParseArrItems fuel other
         .ok (.varr xs, rest2))
    | '\x7b' :: rest =>
      (match jsonSkipWs rest with
       | '\x7d' :: rest2 => .ok (.vobj [], rest2)
       | other => do
         let (fs, rest2) ← jsonParseObjItems fuel other
         .ok (.vobj fs, rest2))
    | '-' :: rest =>
      (match jsonScanDigits [] rest with
       | ([], _) => .error (.thrown "Unexpected token in JSON input")
       | (ds, rest2) => .ok (.vnum (-(digitsToNat ds : Int)), rest2))
    | c :: rest =>
      if c.isDigit then
        (match jsonScanDigits [] (c :: rest) with
         | (ds, rest2) => .ok (.vnum (digitsToNat ds : Int), rest2))
      else .error (.thrown "Unexpected token in JSON input")
    | [] => .error (.thrown "Unexpected end of JSON input")

def jsonParseArrItems (fuel : Nat) (cs : List Char) : Except JsErr (List Val × List Char) :=
  match fuel with
  | 0 => .error (.thrown "Unexpected end of JSON input")
  | fuel + 1 => do
    let (v, rest) ← jsonParseVal fuel cs
    match jsonSkipWs rest with
    | ',' :: rest2 => do
      let (vs, rest3) ← jsonParseArrItems fuel rest2
      .ok (v :: vs, rest3)
    | ']' :: rest2 => .ok ([v], rest2)
    | _ => .error (.thrown "Unexpected token in JSON input")

def jsonParseObjItems (fuel : Nat) (cs : List Char) :
    Except JsErr (List (String × Val) × List Char) :=
  match fuel with
  | 0 => .error (.thrown "Unexpected end of JSON input")
  | fuel + 1 =>
    match jsonSkipWs cs with
    | '"' :: rest => do
      let (k, rest2) ← jsonScanString [] rest
      match jsonSkipWs rest2 with
      | ':' :: rest3 => do
        let (v, rest4) ← jsonParseVal fuel rest3
        match jsonSkipWs rest4 with
        | ',' :: rest5 => do
          let (fs, rest6) ← jsonParseObjItems fuel rest5
          .ok ((k, v) :: fs, rest6)
        | '\x7d' :: rest5 => .ok ([(k, v)], rest5)
        | _ => .error (.thrown "Unexpected token in JSON input")
      | _ => .error (.thrown "Unexpected token in JSON input")
    | _ => .error (.thrown "Unexpected token in JSON input")

end

/-- `JSON.parse(v)`: the argument is coerced to a string first, then
parsed; trailing garbage is an error. -/
def jsonParse (v : Val) : Except JsErr Val :=
  let cs := (jsToString v).data
  match jsonParseVal (cs.length + 1) cs with
  | .error e => .error e
  | .ok (r, rest) =>
    match jsonSkipWs rest with
    | [] => .ok r
    | _ => .error (.thrown "Unexpected token in JSON input")

/-! PlanReviewer constructor constants (PlanReviewer.js lines 10-36). -/

def NO_CHANGES_OUTPUT : String := "No changes. Infrastructure is up-to-date."

def KNOWN_AFTER_APPLY : String := "(known after apply)"

def CLOSE_RESOURCE : String := "\x7d\n\n"

def MARKER_READ : String := "<="

def MARKER_CREATE : String := "+"

def MARKER_DELETE : String := "-"

def MARKER_UPDATE : String := "~"

def MARKER_UNKNOWN : String := "?"

def COLOR_RED : String := "\x1b[31m"

def COLOR_GREEN : String := "\x1b[32m"

def COLOR_YELLOW : String := "\x1b[33m"

def COLOR_RESET : String := "\x1b[0m"

def COLOR_BLUE : String := "\x1b[34m"

/-- PlanReviewer.getMatchingAddress (lines 358-366): throws when the
candidate collection is not an array, otherwise returns the first item
whose `address` property strictly equals the target, or `null`. -/
def getMatchingAddressItems (address : String) : List Val → Except JsErr Val
  | [] => .ok .vnull
  | item :: rest =>
    match propAccess item "address" with
    | .error e => .error e
    | .ok a => if valBeq a (.vstr address) then .ok item else getMatchingAddressItems address rest

def getMatchingAddress (address : String) (items : Val) : Except JsErr Val :=
  match items with
  | .varr xs => getMatchingAddressItems address xs
  | _ => .error (.thrown "items not array data type as expected.")

/-- Accumulating scan for `jsSplitDot`. -/
def splitDotAux : List Char → List Char → List String
  | acc, [] => [String.mk acc.reverse]
  | acc, c :: rest =>
    if c = '.' then String.mk acc.reverse :: splitDotAux [] rest
    else splitDotAux (c :: acc) rest

/-- JS `address.split(".")`: the dot-separated tokens of an address
(agreeing with `String.splitOn` for this separator). -/
def jsSplitDot (s : String) : List String :=
  splitDotAux [] s.data

/-- PlanReviewer.getConfigResourceWrapper (lines 377-399): split the
address on dots; two or fewer tokens looks the address up in the root
module's declared resources, more tokens looks the trailing
`type.name` up in the named module call's resources.  The source then
compares the lookup result against `undefined` before throwing its
"Couldn't find change address" error, although `getMatchingAddress`
signals a miss with `null`. -/
def getConfigResourceWrapper (fullAddress : String) (fullJson : Val) :
    Except JsErr (Val × String) :=
  let addressTokens := jsSplitDot fullAddress
  let tokenCount := addressTokens.length
  if tokenCount ≤ 2 then
    match (do
      let c ← propAccess fullJson "configuration"
      let rm ← propAccess c "root_module"
      let rs ← propAccess rm "resources"
      getMatchingAddress fullAddress rs) with
    | .error e => .error e
    | .ok configResource =>
      if valBeq configResource .vundefined then
        .error (.thrown ("Couldn't find change address [" ++ fullAddress ++ "] in plan JSON."))
      else .ok (configResource, "root_module")
  else
    let moduleName := addressTokens.getD (tokenCount - 3) ""
    let relAddress :=
      addressTokens.getD (tokenCount - 2) "" ++ "." ++ addressTokens.getD (tokenCount - 1) ""
    match (do
      let c ← propAccess fullJson "configuration"
      let rm ← propAccess c "root_module"
      let mc ← propAccess rm "module_calls"
      let m ← propAccess mc moduleName
      let mm ← propAccess m "module"
      let rs ← propAccess mm "resources"
      getMatchingAddress relAddress rs) with
    | .error e => .error e
    | .ok configResource =>
      if valBeq configResource .vundefined then
        .error (.thrown ("Couldn't find change address [" ++ fullAddress ++ "] in plan JSON."))
      else .ok (configResource, moduleName)

/-- The child-module scan of PlanReviewer.getPlannedValuesModuleResource
(lines 307-317): find the child module whose address is
`module.<moduleName>`, search it with the fully qualified address, and
on a miss break out (`none`) towards the fallback return. -/
def childModulesLoop (moduleName relativeAddress : String) :
    List Val → Except JsErr (Option Val)
  | [] => .ok none
  | c :: rest =>
    match propAccess c "address" with
    | .error e => .error e
    | .ok a =>
      if valBeq a (.vstr ("module." ++ moduleName)) then
        match (do
          let rs ← propAccess c "resources"
          getMatchingAddress ("module." ++ moduleName ++ "." ++ relativeAddress) rs) with
        | .error e => .error e
        | .ok r => if valBeq r .vnull then .ok none else .ok (some r)
      else childModulesLoop moduleName relativeAddress rest

/-- PlanReviewer.getPlannedValuesModuleResource (lines 294-321): the
root module is searched directly; otherwise the matching child module
is searched with the fully qualified address.  The fallback return on
line 319 reads the identifier `fullAddress`, which is not declared in
the function, so reaching it raises a ReferenceError in strict mode. -/
def getPlannedValuesModuleResource (relativeAddress moduleName : String) (fullJson : Val) :
    Except JsErr Val :=
  if moduleName == "root_module" then
    match (do
      let pv ← propAccess fullJson "planned_values"
      let rm ← propAccess pv "root_module"
      let rs ← propAccess rm "resources"
      getMatchingAddress relativeAddress rs) with
    | .error e => .error e
    | .ok r => .ok r
  else
    match (do
      let pv ← propAccess fullJson "planned_values"
      let rm ← propAccess pv "root_module"
      propAccess rm "child_modules") with
    | .error e => .error e
    | .ok cms =>
      match (match cms with
             | .varr cs => childModulesLoop moduleName relativeAddress cs
             | _ => .ok none) with
      | .error e => .error e
      | .ok (some r) => .ok r
      | .ok none => .error .referenceError

/-- The variable-splicing loop of PlanReviewer.getPredictedNewValue
(lines 275-280): for each variable key in order, globally replace the
literal placeholder in the current template text by the variable's
value coerced to a string. -/
def renderTemplate (template : String) (vars : List (String × Val)) : String :=
  vars.foldl
    (fun t kv => strReplaceAll t ("$\x7b" ++ kv.1 ++ "\x7d") (jsToString kv.2)) template

/-- `Object.keys` enumeration of an array together with its element
values, as the splicing loop sees a template_file `vars` array. -/
def indexedFields (xs : List Val) : List (String × Val) :=
  (List.range xs.length).map fun i => (toString i, xs.getD i .vundefined)

/-- One attribute's simplified diff record as getAttributeDiffs builds
it: `oldValue` and `newValue`, each `null` when absent/empty. -/
structure DiffRec where
  oldValue : Val
  newValue : Val
deriving Repr

/-- PlanReviewer.getPredictedNewValue (lines 227-283): predict the
eventual value of a "(known after apply)" attribute for the two
template-backed resource types by resolving the declaration, requiring
a single data.template_file reference, locating its planned values and
splicing the variables into the template.  `ok .vnull` is the
"cannot predict" result; errors are thrown JS exceptions. -/
def getPredictedNewValue (diff : DiffRec) (resource fullJson : Val) : Except JsErr Val :=
  if !(valBeq diff.newValue (.vstr KNOWN_AFTER_APPLY)) then .ok .vnull
  else
    match propAccess resource "type" with
    | .error e => .error e
    | .ok ty =>
      if !(valBeq ty (.vstr "aws_iam_role_policy") || valBeq ty (.vstr "aws_sfn_state_machine"))
      then .ok .vnull
      else
        match propAccess resource "address" with
        | .error e => .error e
        | .ok addrV =>
          match addrV with
          | .vstr address =>
            match getConfigResourceWrapper address fullJson with
            | .error e => .error e
            | .ok (configResource, moduleName) =>
              match propAccess configResource "expressions" with
              | .error e => .error e
              | .ok exprs =>
                if typeofStr exprs != "object" then .ok .vnull
                else
                  match propAccess exprs
                      (if valBeq ty (.vstr "aws_iam_role_policy") then "policy"
                       else "definition") with
                  | .error e => .error e
                  | .ok attrE =>
                    if typeofStr attrE != "object" then .ok .vnull
                    else
                      match propAccess attrE "references" with
                      | .error e => .error e
                      | .ok refs =>
                        match refs with
                        | .varr rs =>
                          if rs.length != 1 then .ok .vnull
                          else
                            match rs.getD 0 .vundefined with
                            | .vstr templateAddress =>
                              if !(strStartsWith templateAddress "data.template_file." ||
                                   strContains templateAddress ".data.template_file.")
                              then .ok .vnull
                              else
                                match getPlannedValuesModuleResource templateAddress
                                    moduleName fullJson with
                                | .error e => .error e
                                | .ok templateResource =>
                                  if looseNull templateResource then
                                    .error (.thrown ("Couldn't find template resource [" ++
                                      templateAddress ++ "] in fullJson"))
                                  else
                                    match propAccess templateResource "values" with
                                    | .error e => .error e
                                    | .ok vals =>
                                      match propAccess vals "template" with
                                      | .error e => .error e
                                      | .ok template =>
                                        match propAccess vals "vars" with
                                        | .error e => .error e
                                        | .ok templateVars =>
                                          match template with
                                          | .vstr tpl =>
                                            if typeofStr templateVars != "object" then .ok .vnull
                                            else
                                              match templateVars with
                                              | .vobj vfs => .ok (.vstr (renderTemplate tpl vfs))
                                              | .varr xs =>
                                                .ok (.vstr (renderTemplate tpl (indexedFields xs)))
                                              | _ => .error .typeError
                                          | _ => .ok .vnull
                            | _ => .error .typeError
                        | _ => .ok .vnull
          | _ => .error .typeError

/-- PlanReviewer.shouldSkipDiffKnownAfter (lines 331-335). -/
def shouldSkipDiffKnownAfter (resource : Val) (diff : DiffRec) (attrName : String) : Bool :=
  if !(valBeq diff.newValue (.vstr KNOWN_AFTER_APPLY)) then false
  else if valBeq (propAccessD resource "type") (.vstr "aws_lambda_function") &&
          (attrName == "last_modified" || attrName == "qualified_arn") then true
  else false

/-- PlanReviewer.shouldSkipAlways (lines 345-349). -/
def shouldSkipAlways (resource : Val) (attrName : String) : Bool :=
  valBeq (propAccessD resource "type") (.vstr "aws_lambda_function") &&
    attrName == "source_code_hash"

/-- The `(x === undefined) ? {} : x` defaulting of the element-wise
array merge (lines 576-577). -/
def undefToEmpty (v : Val) : Val :=
  if valBeq v .vundefined then .vobj [] else v

/-- Is `typeof v` one of string/number/boolean (line 579)? -/
def isScalarTypeof (v : Val) : Bool :=
  typeofStr v == "string" || typeofStr v == "number" || typeofStr v == "boolean"

/-- One index step of the element-wise array merge (lines 575-595): a
scalar marker element replaces the new element, except that a `false`
marker with a non-null new element keeps the new element; any other
marker element is deep-merged into the new element. -/
def mergeItemAt (newArr afterArr : List Val) (j : Nat) : Val :=
  if isScalarTypeof (undefToEmpty (afterArr.getD j .vundefined)) then
    if valBeq (undefToEmpty (afterArr.getD j .vundefined)) (.vbool false) &&
       !(valBeq (undefToEmpty (newArr.getD j .vundefined)) .vnull)
    then undefToEmpty (newArr.getD j .vundefined)
    else undefToEmpty (afterArr.getD j .vundefined)
  else deepmergeVal (undefToEmpty (newArr.getD j .vundefined)) (undefToEmpty (afterArr.getD j .vundefined))

/-- The element-wise array merge of getAttributeDiffs (lines 569-598):
one combined item per index up to the longer length. -/
def mergeArrayItems (newArr afterArr : List Val) : List Val :=
  (List.range (max afterArr.length newArr.length)).map (mergeItemAt newArr afterArr)

/-- The unknown-marker reconciliation of getAttributeDiffs
(lines 549-607) for one attribute: returns the completed new value and
any "Unexpected condition" diagnostic lines logged on the way. -/
def mergeUnknown (key : String) (newValue m : Val) : Val × List String :=
  if !(valBeq m .vundefined) && !(valBeq m .vnull) && !(isEmptyObject m) then
    if valBeq m (.vbool true) then (.vstr KNOWN_AFTER_APPLY, [])
    else if valBeq m (.vbool false) then (newValue, [])
    else if valBeq newValue .vnull then (m, [])
    else
      match m, newValue with
      | .varr ms, .varr ns => (.varr (mergeArrayItems ns ms), [])
      | _, _ =>
        if isObject m && isObject newValue then (deepmergeVal newValue m, [])
        else (newValue,
          ["Unexpected condition after attribute [" ++ key ++ "] value [" ++
           jsToString newValue ++ "]; after_unknown value [" ++ jsToString m ++ "]"])
  else (newValue, [])

/-- Resolution of one attribute's old value (lines 527-536): `null`
when the old map is loosely null, the key is absent or null, or the
value is an empty object. -/
def resolveOld (oldState : Val) (key : String) : Except JsErr Val :=
  if looseNull oldState then .ok .vnull
  else
    match propAccess oldState key with
    | .error e => .error e
    | .ok v =>
      if valBeq v .vundefined || valBeq v .vnull || isEmptyObject v then .ok .vnull else .ok v

/-- Resolution of one attribute's known new value (lines 538-547): the
guard tests `newState === null` only, so an `undefined` new map
reaches the property access and throws. -/
def resolveNew (newState : Val) (key : String) : Except JsErr Val :=
  if valBeq newState .vnull then .ok .vnull
  else
    match propAccess newState key with
    | .error e => .error e
    | .ok v =>
      if valBeq v .vundefined || valBeq v .vnull || isEmptyObject v then .ok .vnull else .ok v

/-- The `resource.mode === "data" && resource.type === "template_file"`
guard of getAttributeDiffs (line 498), including the short-circuit on
the property accesses. -/
def isTemplateDataResource (resource : Val) : Except JsErr Bool :=
  match propAccess resource "mode" with
  | .error e => .error e
  | .ok mode =>
    if valBeq mode (.vstr "data") then
      match propAccess resource "type" with
      | .error e => .error e
      | .ok ty => .ok (valBeq ty (.vstr "template_file"))
    else .ok false

/-- JS `delete v.k`: a TypeError on null/undefined, removal of the key
on an object, a no-op otherwise. -/
def deleteFieldE (v : Val) (k : String) : Except JsErr Val :=
  match v with
  | .vnull => .error .typeError
  | .vundefined => .error .typeError
  | .vobj fs => .ok (.vobj (fs.filter fun f => !(f.1 == k)))
  | _ => .ok v

/-- Key-union accumulation of the three key lists (lines 508-519): the
object-insert semantics keep the first occurrence of each key. -/
def combineKeys (ks : List String) : List String :=
  ks.foldl (fun acc k => if acc.contains k then acc else acc ++ [k]) []

/-- The per-key loop of getAttributeDiffs (lines 523-608), threading
the accumulated records and diagnostic log. -/
def diffFold (oldState newState afterSt : Val) :
    List String → List (String × DiffRec) → List String →
    Except JsErr (List (String × DiffRec) × List String)
  | [], acc, lg => .ok (acc, lg)
  | key :: ks, acc, lg =>
    match resolveOld oldState key with
    | .error e => .error e
    | .ok ov =>
      match resolveNew newState key with
      | .error e => .error e
      | .ok nv0 =>
        match propAccess afterSt key with
        | .error e => .error e
        | .ok mv =>
          match mergeUnknown key nv0 mv with
          | (nv, lg2) => diffFold oldState newState afterSt ks (acc ++ [(key, ⟨ov, nv⟩)]) (lg ++ lg2)

/-- The in-place pruning of getAttributeDiffs (lines 498-501): for a
data template_file resource, `delete afterState.id` and
`delete afterState.rendered` are executed on the caller's marker map. -/
def deleteTemplateKeys (isTpl : Bool) (afterState : Val) : Except JsErr Val :=
  if isTpl then
    match deleteFieldE afterState "id" with
    | .error e => .error e
    | .ok a1 => deleteFieldE a1 "rendered"
  else .ok afterState

/-- PlanReviewer.getAttributeDiffs (lines 460-611): for a data
template_file resource the `id` and `rendered` keys are first deleted
from the unknown-marker map in place; the diff set then carries one
record per combined key.  The result triple is the record list in key
order, the final (possibly pruned) marker map, and the diagnostic log
lines. -/
def getAttributeDiffs (newState oldState afterState resource : Val) :
    Except JsErr (List (String × DiffRec) × Val × List String) :=
  match isTemplateDataResource resource with
  | .error e => .error e
  | .ok isTpl =>
    match deleteTemplateKeys isTpl afterState with
    | .error e => .error e
    | .ok afterSt =>
      match jsKeysE afterSt with
      | .error e => .error e
      | .ok afterKeys =>
        let oldKeys := if looseNull oldState then [] else jsKeys oldState
        let newKeys := if looseNull newState then [] else jsKeys newState
        let allKeys := combineKeys ((oldKeys ++ newKeys) ++ afterKeys)
        match diffFold oldState newState afterSt allKeys [] [] with
        | .error e => .error e
        | .ok (diffs, lg) => .ok (diffs, afterSt, lg)

/-- The running tally of change kinds (`changeCount` in process). -/
structure ChangeCount where
  read : Nat
  create : Nat
  update : Nat
  delete : Nat
  unknown : Nat
deriving Repr, DecidableEq

/-- The classifier's per-resource result: one display symbol and one
canonical change kind per action. -/
structure ChangeInfo where
  symbols : List String
  changes : List String
deriving Repr, DecidableEq

/-- The canonical change kind of one action string (the switch of
lines 419-444): the four known kinds map to themselves, everything
else is "unknown". -/
def classifyChange (v : Val) : String :=
  if valBeq v (.vstr "read") then "read"
  else if valBeq v (.vstr "create") then "create"
  else if valBeq v (.vstr "update") then "update"
  else if valBeq v (.vstr "delete") then "delete"
  else "unknown"

/-- The coloured display symbol pushed for one action. -/
def symbolForChange (v : Val) : String :=
  if valBeq v (.vstr "read") then COLOR_BLUE ++ MARKER_READ ++ COLOR_RESET
  else if valBeq v (.vstr "create") then COLOR_GREEN ++ MARKER_CREATE ++ COLOR_RESET
  else if valBeq v (.vstr "update") then COLOR_YELLOW ++ MARKER_UPDATE ++ COLOR_RESET
  else if valBeq v (.vstr "delete") then COLOR_RED ++ MARKER_DELETE ++ COLOR_RESET
  else COLOR_RED ++ MARKER_UNKNOWN ++ COLOR_RESET

/-- The tally increment for one action. -/
def bumpCount (cc : ChangeCount) (v : Val) : ChangeCount :=
  match classifyChange v with
  | "read" => { cc with read := cc.read + 1 }
  | "create" => { cc with create := cc.create + 1 }
  | "update" => { cc with update := cc.update + 1 }
  | "delete" => { cc with delete := cc.delete + 1 }
  | _ => { cc with unknown := cc.unknown + 1 }

/-- One iteration of the classifier's action loop: bump the tally and
push the symbol and the change kind. -/
def changeStep (p : ChangeCount × ChangeInfo) (v : Val) : ChangeCount × ChangeInfo :=
  (bumpCount p.1 v,
   ⟨p.2.symbols ++ [symbolForChange v], p.2.changes ++ [classifyChange v]⟩)

/-- The `.length` property as the classifier reads it (line 415). -/
def jsLengthProp : Val → Val
  | .varr xs => .vnum xs.length
  | .vstr s => .vnum s.length
  | .vobj fs => objGetD fs "length"
  | _ => .vundefined

/-- Indexing `actions[0]` as the classifier reads it. -/
def jsIndexProp (v : Val) (i : Nat) : Val :=
  propAccessD v (toString i)

/-- The values a `for (i = 0; i < v.length; i++) v[i]` loop visits. -/
def jsElems : Val → List Val
  | .varr xs => xs
  | .vstr s => s.data.map fun c => .vstr (String.singleton c)
  | .vobj fs =>
    (match objGetD fs "length" with
     | .vnum n => (List.range n.toNat).map fun i => objGetD fs (toString i)
     | _ => [])
  | _ => []

/-- PlanReviewer.getResourceChangeInfo (lines 408-447): `null` when the
single action is "no-op", otherwise the symbol/kind lists built by the
action loop together with the updated tally. -/
def getResourceChangeInfo (actions : Val) (changeCount : ChangeCount) :
    Option ChangeInfo × ChangeCount :=
  if valBeq (jsLengthProp actions) (.vnum 1) && valBeq (jsIndexProp actions 0) (.vstr "no-op")
  then (none, changeCount)
  else
    let p := (jsElems actions).foldl changeStep (changeCount, ⟨[], []⟩)
    (some p.2, p.1)

/-- The run state of one `process` invocation: the `console.log` lines
emitted so far and the mutable change tally. -/
structure RunSt where
  log : List String
  cc : ChangeCount
deriving Repr, DecidableEq

/-- How a caught error renders inside `Unexpected error: ${error}`
(stack traces are engine text and are modelled by the same rendering). -/
def errToString : JsErr → String
  | .thrown m => "Error: " ++ m
  | .typeError => "TypeError"
  | .referenceError => "ReferenceError: fullAddress is not defined"

/-- The old-value rendering switch of process (lines 149-163). -/
def dispOldValue (v : Val) : String :=
  match typeofStr v == "string", v with
  | true, .vstr s => "\"" ++ s ++ "\""
  | _, .varr xs =>
    if xs.length == 1 then jsonStringifyStr (xs.getD 0 .vundefined) else jsonStringifyStr (.varr xs)
  | _, .vobj fs => jsonStringifyStr (.vobj fs)
  | _, .vnull => jsonStringifyStr .vnull
  | _, w => jsToString w

/-- The new-value rendering switch of process (lines 168-193). -/
def dispNewValue (v : Val) : String :=
  match v with
  | .vstr s => if s == KNOWN_AFTER_APPLY then KNOWN_AFTER_APPLY else "\"" ++ s ++ "\""
  | .varr xs =>
    if xs.length == 1 && isObject (xs.getD 0 .vundefined) then jsonStringifyStr (xs.getD 0 .vundefined)
    else jsonStringifyStr (.varr xs)
  | .vobj fs => jsonStringifyStr (.vobj fs)
  | .vnull => jsonStringifyStr .vnull
  | w => jsToString w

/-- The guarded prediction comparison of process (lines 135-145): a
detected no-change logs the "Rendered - Predicting No Change" line and
skips the attribute; a JSON.parse failure logs the local diagnostic
and falls through to the ordinary rendering. -/
def comparePredicted (st : RunSt) (line : String) (diff : DiffRec) (predicted : Val) :
    RunSt × Bool :=
  if valBeq diff.newValue predicted then
    ({ st with log := st.log ++
        [line ++ " " ++ COLOR_YELLOW ++ "->" ++ COLOR_RESET ++ " (Rendered - Predicting No Change)"] },
     true)
  else
    match jsonParse diff.oldValue with
    | .error _ =>
      ({ st with log := st.log ++ ["***Unexpected error comparing oldValue and new predictedValue"] },
       false)
    | .ok a =>
      match jsonParse predicted with
      | .error _ =>
        ({ st with log := st.log ++ ["***Unexpected error comparing oldValue and new predictedValue"] },
         false)
      | .ok b =>
        if deepEql a b then
          ({ st with log := st.log ++
              [line ++ " " ++ COLOR_YELLOW ++ "->" ++ COLOR_RESET ++ " (Rendered - Predicting No Change)"] },
           true)
        else (st, false)

/-- The per-attribute output loop of process (lines 99-195). -/
def attrLoop (json resource : Val) :
    List (String × DiffRec) → RunSt → RunSt × Option JsErr
  | [], st => (st, none)
  | (attrName, diff) :: rest, st =>
    if shouldSkipDiffKnownAfter resource diff attrName || shouldSkipAlways resource attrName then
      attrLoop json resource rest st
    else if deepEql diff.oldValue diff.newValue then attrLoop json resource rest st
    else
      let marker :=
        if !(valBeq diff.oldValue .vnull) && valBeq diff.newValue .vnull then
          "\t" ++ COLOR_RED ++ MARKER_DELETE ++ COLOR_RESET
        else if valBeq diff.oldValue .vnull && !(valBeq diff.newValue .vnull) then
          "\t" ++ COLOR_GREEN ++ MARKER_CREATE ++ COLOR_RESET
        else "\t" ++ COLOR_YELLOW ++ MARKER_UPDATE ++ COLOR_RESET
      let line0 := jsPadEnd (marker ++ " " ++ attrName) 45 ++ "= "
      if !(valBeq diff.oldValue .vnull) then
        match getPredictedNewValue diff resource json with
        | .error e => (st, some e)
        | .ok predicted =>
          match (if valBeq diff.newValue (.vstr KNOWN_AFTER_APPLY) &&
                    !(valBeq predicted .vnull)
                 then comparePredicted st line0 diff predicted
                 else (st, false)) with
          | (st2, true) => attrLoop json resource rest st2
          | (st2, false) =>
            let line1 := line0 ++ dispOldValue diff.oldValue ++ " " ++ COLOR_YELLOW ++ "->" ++
              COLOR_RESET ++ " "
            attrLoop json resource rest
              { st2 with log := st2.log ++ [line1 ++ dispNewValue diff.newValue] }
      else
        attrLoop json resource rest
          { st with log := st.log ++ [line0 ++ dispNewValue diff.newValue] }

/-- The body of one iteration of the resource-change loop of process
(lines 64-197): classify, print the header, and unless the resource is
delete-only or read-only, print its attribute diffs; a thrown error is
handed back with the log so far. -/
def processOneResource (json r : Val) (st : RunSt) : RunSt × Option JsErr :=
  match (match propAccess r "change" with
         | .error e => .error e
         | .ok ch => propAccess ch "actions" : Except JsErr Val) with
  | .error e => (st, some e)
  | .ok actions =>
    match getResourceChangeInfo actions st.cc with
    | (none, cc2) => ({ st with cc := cc2 }, none)
    | (some info, cc2) =>
      let st := { st with cc := cc2 }
      let line := jsPadStart (jsTrim (String.intercalate "" info.symbols)) 11
      let line :=
        if !(valBeq (propAccessD r "mode") (.vstr "managed")) then
          line ++ " " ++ jsToString (propAccessD r "mode")
        else line
      let line := line ++ " \"" ++ jsToString (propAccessD r "type") ++ "\" \"" ++
        jsToString (propAccessD r "name") ++ "\"  \x7b"
      let st := { st with log := st.log ++ [line] }
      if info.changes == ["delete"] then ({ st with log := st.log ++ [CLOSE_RESOURCE] }, none)
      else if info.changes == ["read"] then ({ st with log := st.log ++ [CLOSE_RESOURCE] }, none)
      else
        match (do
          let ch ← propAccess r "change"
          let aft ← propAccess ch "after"
          let bef ← propAccess ch "before"
          let aun ← propAccess ch "after_unknown"
          getAttributeDiffs aft bef aun r) with
        | .error e => (st, some e)
        | .ok (diffs, _, innerLog) =>
          let st := { st with log := st.log ++ innerLog }
          match attrLoop json r diffs st with
          | (st2, some e) => (st2, some e)
          | (st2, none) => ({ st2 with log := st2.log ++ [CLOSE_RESOURCE] }, none)

/-- The resource-change loop of process: an error thrown by one
resource's processing escapes to the caller's single catch, so the
remaining resources are not visited. -/
def processChanges (json : Val) : List Val → RunSt → RunSt × Option JsErr
  | [], st => (st, none)
  | r :: rest, st =>
    match processOneResource json r st with
    | (st2, some e) => (st2, some e)
    | (st2, none) => processChanges json rest st2

/-- The summary line of process (lines 200-202). -/
def summaryLine (cc : ChangeCount) : String :=
  "  Plan: " ++ COLOR_GREEN ++ toString cc.create ++ COLOR_RESET ++ " to add, " ++
  COLOR_YELLOW ++ toString cc.update ++ COLOR_RESET ++ " to change, " ++
  COLOR_RED ++ toString cc.delete ++ COLOR_RESET ++ " to destroy."

/-- The zero tally process starts from (lines 52-58). -/
def initialChangeCount : ChangeCount := ⟨0, 0, 0, 0, 0⟩

/-- PlanReviewer.process (lines 45-215) from the parsed plan document
onward (reading and parsing the plan file are the excluded CLI
boundary): the emitted `console.log` lines.  The whole body sits in a
single try/catch, so any error thrown while processing a resource ends
the run with the two error lines and no summary. -/
def processParsed (json : Val) : List String :=
  match propAccess json "resource_changes" with
  | .error e => ["Unexpected error: " ++ errToString e, "Error stack: " ++ errToString e]
  | .ok rc =>
    match rc with
    | .varr rs =>
      match processChanges json rs ⟨["\n"], initialChangeCount⟩ with
      | (st, none) => st.log ++ [summaryLine st.cc, "\n\n"]
      | (st, some e) =>
        st.log ++ ["Unexpected error: " ++ errToString e, "Error stack: " ++ errToString e]
    | _ => [COLOR_GREEN ++ NO_CHANGES_OUTPUT ++ COLOR_RESET]

/-- The total number of actions tallied in a change count. -/
def totalCount (cc : ChangeCount) : Nat :=
  cc.read + cc.create + cc.update + cc.delete + cc.unknown

/-! Concrete plan fragments used to settle individual claims. -/

/-- A planned-values tree whose root resource list holds the template
resource under its fully qualified address, while the matching child
module `module.app` does not contain it. -/
def c1PlannedJson : Val :=
  .vobj [("planned_values", .vobj [("root_module", .vobj [
    ("resources", .varr [.vobj [("address", .vstr "module.app.data.template_file.t")]]),
    ("child_modules", .varr [.vobj [
      ("address", .vstr "module.app"), ("resources", .varr [])]])])])]

/-- A configuration tree whose root module declares no resources at
all, so any address lookup misses. -/
def c3ConfigJson : Val :=
  .vobj [("configuration", .vobj [("root_module", .vobj [("resources", .varr [])])])]

/-- First resource change of the C2 plan: an update whose `policy`
attribute is known only after apply; its declaration references
`data.template_file.t`, which is absent from the planned values, so the
predictor throws. -/
def c2Resource1 : Val :=
  .vobj [
    ("address", .vstr "aws_iam_role_policy.r"),
    ("mode", .vstr "managed"),
    ("type", .vstr "aws_iam_role_policy"),
    ("name", .vstr "r"),
    ("change", .vobj [
      ("actions", .varr [.vstr "update"]),
      ("before", .vobj [("policy", .vstr "x")]),
      ("after", .vobj []),
      ("after_unknown", .vobj [("policy", .vbool true)])])]

/-- Second resource change of the C2 plan: an ordinary create that a
run honouring the claimed error scoping would still report. -/
def c2Resource2 : Val :=
  .vobj [
    ("address", .vstr "aws_instance.second"),
    ("mode", .vstr "managed"),
    ("type", .vstr "aws_instance"),
    ("name", .vstr "second"),
    ("change", .vobj [
      ("actions", .varr [.vstr "create"]),
      ("before", .vnull),
      ("after", .vobj [("ami", .vstr "a-1")]),
      ("after_unknown", .vobj [])])]

/-- A plan with two resource changes in which processing the first one
throws inside the predictor. -/
def c2PlanJson : Val :=
  .vobj [
    ("resource_changes", .varr [c2Resource1, c2Resource2]),
    ("configuration", .vobj [("root_module", .vobj [("resources", .varr [
      .vobj [
        ("address", .vstr "aws_iam_role_policy.r"),
        ("expressions", .vobj [("policy", .vobj [
          ("references", .varr [.vstr "data.template_file.t"])])])]])])]),
    ("planned_values", .vobj [("root_module", .vobj [("resources", .varr [])])])]

/-- The header line the C2 run prints for its first resource. -/
def c2Header : String :=
  " \x1b[33m~\x1b[0m \"aws_iam_role_policy\" \"r\"  \x7b"

/-- The error thrown while predicting the first C2 resource's policy. -/
def c2Err : JsErr :=
  .thrown "Couldn't find template resource [data.template_file.t] in fullJson"

/-! Helper lemmas shared by several claim theorems. -/

theorem valBeq_vstr_iff (v : Val) (s : String) : valBeq v (.vstr s) = true ↔ v = .vstr s := by
  cases v <;> simp only [valBeq] <;> simp

theorem containsStr_iff (l : List String) (k : String) : l.contains k = true ↔ k ∈ l := by
  induction l with
  | nil => simp
  | cons a l ih =>
    simp only [List.contains_cons, Bool.or_eq_true, beq_iff_eq, List.mem_cons, ih]

theorem propAccess_vobj (fs : List (String × Val)) (k : String) :
    propAccess (.vobj fs) k = .ok (objGetD fs k) := rfl

/-- C1: for a resource owned by a named child module, when the child
module does not contain the template resource the source's fallback
line reads the undeclared identifier `fullAddress` and raises a
ReferenceError instead of searching the root module's resource list
with the fully qualified address — the second conjunct shows that the
intended fallback lookup would in fact have found the resource. -/
theorem c1_fallback_reference_error :
    getPlannedValuesModuleResource "data.template_file.t" "app" c1PlannedJson =
      .error .referenceError ∧
    getMatchingAddress "module.app.data.template_file.t"
      (propAccessD (propAccessD (propAccessD c1PlannedJson "planned_values") "root_module")
        "resources") =
      .ok (.vobj [("address", .vstr "module.app.data.template_file.t")]) :=
  ⟨rfl, rfl⟩

/-- C3: a fully qualified address whose declaration is absent from the
consulted configuration resource list makes getConfigResourceWrapper
return a wrapper carrying a `null` resource instead of failing: the
lookup signals a miss with `null`, the guard compares against
`undefined`, so the "Couldn't find change address" throw is dead
code. -/
theorem c3_missing_address_returns_wrapper :
    getConfigResourceWrapper "aws_iam_role_policy.r" c3ConfigJson =
      .ok (.vnull, "root_module") :=
  rfl

/-- C6 counterexample: rendering the template "${a}" with the variable
map {a: "${b}", b: "X"} yields "X" — the placeholder introduced by
substituting `a` is substituted again when `b` is processed, so the
claimed "no recursive re-substitution" fails. -/
theorem c6_counterexample :
    renderTemplate "$\x7ba\x7d" [("a", .vstr "$\x7bb\x7d"), ("b", .vstr "X")] = "X" ∧
    (("X" : String) == "$\x7bb\x7d") = false :=
  ⟨rfl, rfl⟩

/-- C6 amended: rendering substitutes the variables sequentially in map
order — each variable's placeholder is globally and literally replaced
in the string produced by the previous substitutions, so text produced
by an earlier substitution is subject to later ones; an empty variable
map leaves the body untouched, a placeholder without a matching
variable stays in place, and the spec's example renders exactly as
claimed. -/
theorem c6_sequential_rendering :
    (∀ (body : String) (vars : List (String × Val)) (k : String) (v : Val),
      renderTemplate body (vars ++ [(k, v)]) =
        strReplaceAll (renderTemplate body vars) ("$\x7b" ++ k ++ "\x7d") (jsToString v)) ∧
    (∀ body : String, renderTemplate body [] = body) ∧
    renderTemplate "$\x7bx\x7d" [("a", .vstr "1")] = "$\x7bx\x7d" ∧
    renderTemplate "arn:$\x7bregion\x7d:$\x7bname\x7d"
      [("region", .vstr "us-east-1"), ("name", .vstr "svc")] = "arn:us-east-1:svc" := by
  refine ⟨?_, ?_, rfl, rfl⟩
  · intro body vars k v
    simp [renderTemplate, List.foldl_append]
  · intro body
    rfl

/-- C2 counterexample: in the two-resource plan `c2PlanJson`, the
failure of the first resource's prediction attempt (a missing template
resource) ends the whole run: the log holds only the first resource's
header and the top-level error lines — the second resource is never
reported (no logged line mentions it) and no summary is printed, so a
failure scoped to one attribute does abort the remaining resources. -/
theorem c2_counterexample :
    processParsed c2PlanJson =
      ["\n", c2Header,
       "Unexpected error: " ++ errToString c2Err,
       "Error stack: " ++ errToString c2Err] ∧
    ((processParsed c2PlanJson).filter (fun s => strContains s "second")).length = 0 :=
  ⟨rfl, rfl⟩

/-- C2 amended: an error thrown while processing one resource (for
example the predictor's missing-template error) escapes to the single
top-level handler: the resource loop stops at the failing resource,
discarding the remaining resources, and the run output is the log so
far followed by the two error lines, with no summary. -/
theorem c2_amended :
    (∀ (json r : Val) (rest : List Val) (st st2 : RunSt) (e : JsErr),
      processOneResource json r st = (st2, some e) →
      processChanges json (r :: rest) st = (st2, some e)) ∧
    (∀ (json : Val) (rs : List Val) (st2 : RunSt) (e : JsErr),
      propAccess json "resource_changes" = .ok (.varr rs) →
      processChanges json rs ⟨["\n"], initialChangeCount⟩ = (st2, some e) →
      processParsed json = st2.log ++
        ["Unexpected error: " ++ errToString e, "Error stack: " ++ errToString e]) := by
  constructor
  · intro json r rest st st2 e h
    simp only [processChanges, h]
  · intro json rs st2 e h1 h2
    simp only [processParsed, h1, h2]

theorem c2_amended_witness :
    processChanges c2PlanJson [c2Resource1, c2Resource2] ⟨["\n"], initialChangeCount⟩ =
      (⟨["\n", c2Header], ⟨0, 0, 1, 0, 0⟩⟩, some c2Err) ∧
    processParsed c2PlanJson =
      ["\n", c2Header] ++
        ["Unexpected error: " ++ errToString c2Err, "Error stack: " ++ errToString c2Err] :=
  ⟨c2_amended.1 c2PlanJson c2Resource1 [c2Resource2] ⟨["\n"], initialChangeCount⟩
      ⟨["\n", c2Header], ⟨0, 0, 1, 0, 0⟩⟩ c2Err rfl,
   c2_amended.2 c2PlanJson [c2Resource1, c2Resource2]
      ⟨["\n", c2Header], ⟨0, 0, 1, 0, 0⟩⟩ c2Err rfl rfl⟩

theorem totalCount_bump (cc : ChangeCount) (v : Val) :
    totalCount (bumpCount cc v) = totalCount cc + 1 := by
  unfold bumpCount
  split <;> simp [totalCount] <;> omega

theorem changeStep_foldl (acts : List Val) :
    ∀ (cc : ChangeCount) (sy chg : List String),
      (acts.foldl changeStep (cc, ⟨sy, chg⟩)).2.symbols = sy ++ acts.map symbolForChange ∧
      (acts.foldl changeStep (cc, ⟨sy, chg⟩)).2.changes = chg ++ acts.map classifyChange ∧
      totalCount (acts.foldl changeStep (cc, ⟨sy, chg⟩)).1 = totalCount cc + acts.length := by
  induction acts with
  | nil => simp
  | cons a acts ih =>
    intro cc sy chg
    simp only [List.foldl_cons, List.map_cons, List.length_cons, changeStep]
    obtain ⟨h1, h2, h3⟩ := ih (bumpCount cc a) (sy ++ [symbolForChange a]) (chg ++ [classifyChange a])
    refine ⟨?_, ?_, ?_⟩
    · rw [h1]; simp
    · rw [h2]; simp
    · rw [h3, totalCount_bump]; omega

/-- C8: the Change Classifier returns `null` exactly when the action
list is the single action "no-op"; otherwise it emits one display
symbol and one canonical change kind per action in input order, bumps
the shared tally once per action, and classifies every action outside
read/create/update/delete as "unknown" (the classification function is
total, so no action can raise an error). -/
theorem c8_change_classifier (acts : List Val) (cc : ChangeCount) :
    ((getResourceChangeInfo (.varr acts) cc).1 = none ↔ acts = [.vstr "no-op"]) ∧
    (∀ (info : ChangeInfo) (cc2 : ChangeCount),
      getResourceChangeInfo (.varr acts) cc = (some info, cc2) →
      info.symbols = acts.map symbolForChange ∧
      info.changes = acts.map classifyChange ∧
      totalCount cc2 = totalCount cc + acts.length) := by
  have hiff : (valBeq (jsLengthProp (.varr acts)) (.vnum 1) &&
      valBeq (jsIndexProp (.varr acts) 0) (.vstr "no-op")) = true ↔ acts = [.vstr "no-op"] := by
    constructor
    · intro h
      rw [Bool.and_eq_true] at h
      obtain ⟨hlen, hhd⟩ := h
      have hlen2 : acts.length = 1 := by
        simp only [jsLengthProp, valBeq] at hlen
        exact_mod_cast Int.ofNat_inj.mp (by exact_mod_cast beq_iff_eq.mp hlen)
      match acts, hlen2 with
      | [x], _ =>
        have : x = .vstr "no-op" := by
          have := (valBeq_vstr_iff (jsIndexProp (.varr [x]) 0) "no-op").mp hhd
          simpa [jsIndexProp, propAccessD, strToIndex?] using this
        rw [this]
    · intro h
      subst h
      rfl
  constructor
  · unfold getResourceChangeInfo
    constructor
    · intro h
      by_cases hc : (valBeq (jsLengthProp (.varr acts)) (.vnum 1) &&
          valBeq (jsIndexProp (.varr acts) 0) (.vstr "no-op")) = true
      · exact hiff.mp hc
      · rw [if_neg hc] at h
        simp at h
    · intro h
      rw [if_pos (hiff.mpr h)]
  · intro info cc2 h
    unfold getResourceChangeInfo at h
    by_cases hc : (valBeq (jsLengthProp (.varr acts)) (.vnum 1) &&
        valBeq (jsIndexProp (.varr acts) 0) (.vstr "no-op")) = true
    · rw [if_pos hc] at h
      simp at h
    · rw [if_neg hc] at h
      simp only [jsElems] at h
      obtain ⟨hs, hc2, ht⟩ := changeStep_foldl acts cc [] []
      have hinfo : info = (acts.foldl changeStep (cc, ⟨[], []⟩)).2 := by
        have := congrArg Prod.fst h
        simp at this
        exact this.symm
      have hcc2 : cc2 = (acts.foldl changeStep (cc, ⟨[], []⟩)).1 := by
        have := congrArg Prod.snd h
        simp at this
        exact this.symm
      subst hinfo hcc2
      simp only [hs, hc2, ht, List.nil_append]
      exact ⟨trivial, trivial, trivial⟩

theorem c8_change_classifier_witness :
    ({ symbols := [COLOR_GREEN ++ MARKER_CREATE ++ COLOR_RESET,
                   COLOR_RED ++ MARKER_UNKNOWN ++ COLOR_RESET],
       changes := ["create", "unknown"] } : ChangeInfo).changes =
      [Val.vstr "create", Val.vstr "weird"].map classifyChange ∧
    totalCount ⟨1, 3, 3, 4, 6⟩ = totalCount ⟨1, 2, 3, 4, 5⟩ + 2 :=
  ⟨((c8_change_classifier [.vstr "create", .vstr "weird"] ⟨1, 2, 3, 4, 5⟩).2
      _ _ rfl).2.1,
   ((c8_change_classifier [.vstr "create", .vstr "weird"] ⟨1, 2, 3, 4, 5⟩).2
      { symbols := [COLOR_GREEN ++ MARKER_CREATE ++ COLOR_RESET,
                    COLOR_RED ++ MARKER_UNKNOWN ++ COLOR_RESET],
        changes := ["create", "unknown"] } ⟨1, 3, 3, 4, 6⟩ rfl).2.2⟩

/-- C4: the Value Predictor answers "cannot predict" (`null`) for every
resource whose type is outside {aws_iam_role_policy,
aws_sfn_state_machine} (first conjunct), and — when the declaration is
found and shaped as an expression object — whenever the eligible
attribute's declared `references` is missing a single entry (absent,
zero or several references) or its single reference does not name a
data.template_file resource (second conjunct). -/
theorem c4_predictor_eligibility :
    (∀ (diff : DiffRec) (resource fullJson ty : Val),
      valBeq diff.newValue (.vstr KNOWN_AFTER_APPLY) = true →
      propAccess resource "type" = .ok ty →
      (valBeq ty (.vstr "aws_iam_role_policy") ||
       valBeq ty (.vstr "aws_sfn_state_machine")) = false →
      getPredictedNewValue diff resource fullJson = .ok .vnull) ∧
    (∀ (diff : DiffRec) (resource fullJson ty : Val) (address : String)
       (cf ef af : List (String × Val)) (mname : String),
      valBeq diff.newValue (.vstr KNOWN_AFTER_APPLY) = true →
      propAccess resource "type" = .ok ty →
      (valBeq ty (.vstr "aws_iam_role_policy") ||
       valBeq ty (.vstr "aws_sfn_state_machine")) = true →
      propAccess resource "address" = .ok (.vstr address) →
      getConfigResourceWrapper address fullJson = .ok (.vobj cf, mname) →
      objGetD cf "expressions" = .vobj ef →
      objGetD ef (if valBeq ty (.vstr "aws_iam_role_policy") then "policy" else "definition") =
        .vobj af →
      ((∀ rs, objGetD af "references" ≠ .varr rs) ∨
       (∃ rs, objGetD af "references" = .varr rs ∧ rs.length ≠ 1) ∨
       (∃ r0, objGetD af "references" = .varr [.vstr r0] ∧
         (strStartsWith r0 "data.template_file." ||
          strContains r0 ".data.template_file.") = false)) →
      getPredictedNewValue diff resource fullJson = .ok .vnull) := by
  constructor
  · intro diff resource fullJson ty h1 h2 h3
    simp [getPredictedNewValue, h1, h2, h3]
  · intro diff resource fullJson ty address cf ef af mname h1 h2 h3 h4 h5 hE hA hrefs
    simp only [getPredictedNewValue, h1, h2, h3, h4, h5, propAccess_vobj, hE, hA, typeofStr,
      Bool.not_true, Bool.not_false, Bool.false_eq_true, Bool.true_eq_false,
      bne_self_eq_false, ite_true, ite_false]
    rcases hrefs with hno | ⟨rs, hrs, hlen⟩ | ⟨r0, hr0, hpat⟩
    · cases hv : objGetD af "references"
      case varr xs => exact absurd hv (hno xs)
      all_goals rfl
    · rw [hrs]
      have hb : (rs.length != 1) = true := by simpa [bne_iff_ne] using hlen
      simp [hb]
    · rw [hr0]
      simp [hpat]

theorem c4_predictor_eligibility_witness :
    getPredictedNewValue ⟨.vstr "x", .vstr KNOWN_AFTER_APPLY⟩
      (.vobj [("type", .vstr "aws_instance")]) (.vobj []) = .ok .vnull ∧
    getPredictedNewValue ⟨.vstr "x", .vstr KNOWN_AFTER_APPLY⟩
      (.vobj [("type", .vstr "aws_iam_role_policy"),
              ("address", .vstr "aws_iam_role_policy.r")])
      (.vobj [("configuration", .vobj [("root_module", .vobj [("resources", .varr [
        .vobj [("address", .vstr "aws_iam_role_policy.r"),
               ("expressions", .vobj [("policy", .vobj [("references",
                 .varr [.vstr "data.template_file.a",
                        .vstr "data.template_file.b"])])])]])])])]) = .ok .vnull :=
  ⟨c4_predictor_eligibility.1 ⟨.vstr "x", .vstr KNOWN_AFTER_APPLY⟩
      (.vobj [("type", .vstr "aws_instance")]) (.vobj []) (.vstr "aws_instance")
      rfl rfl rfl,
   c4_predictor_eligibility.2 ⟨.vstr "x", .vstr KNOWN_AFTER_APPLY⟩
      (.vobj [("type", .vstr "aws_iam_role_policy"),
              ("address", .vstr "aws_iam_role_policy.r")])
      (.vobj [("configuration", .vobj [("root_module", .vobj [("resources", .varr [
        .vobj [("address", .vstr "aws_iam_role_policy.r"),
               ("expressions", .vobj [("policy", .vobj [("references",
                 .varr [.vstr "data.template_file.a",
                        .vstr "data.template_file.b"])])])]])])])])
      (.vstr "aws_iam_role_policy") "aws_iam_role_policy.r"
      [("address", .vstr "aws_iam_role_policy.r"),
       ("expressions", .vobj [("policy", .vobj [("references",
         .varr [.vstr "data.template_file.a", .vstr "data.template_file.b"])])])]
      [("policy", .vobj [("references",
         .varr [.vstr "data.template_file.a", .vstr "data.template_file.b"])])]
      [("references", .varr [.vstr "data.template_file.a", .vstr "data.template_file.b"])]
      "root_module" rfl rfl rfl rfl rfl rfl rfl
      (Or.inr (Or.inl ⟨[.vstr "data.template_file.a", .vstr "data.template_file.b"],
        rfl, by decide⟩))⟩

theorem objGetD_cons (f : String × Val) (fs : List (String × Val)) (k : String) :
    objGetD (f :: fs) k = if f.1 == k then f.2 else objGetD fs k := by
  cases h : f.1 == k <;> simp [objGetD, List.find?, h]

theorem objGetD_objSet_same (fs : List (String × Val)) (k : String) (v : Val) :
    objGetD (objSet fs k v) k = v := by
  induction fs with
  | nil => simp [objSet, objGetD_cons]
  | cons f fs ih =>
    cases h : f.1 == k
    · simp only [objSet, h, Bool.false_eq_true, if_false]
      rw [objGetD_cons, h, if_neg (by simp)]
      exact ih
    · simp [objSet, h, objGetD_cons]

theorem objGetD_objSet_other (fs : List (String × Val)) (k1 k : String) (v : Val)
    (hne : k1 ≠ k) : objGetD (objSet fs k1 v) k = objGetD fs k := by
  have hk1k : (k1 == k) = false := by simpa using hne
  induction fs with
  | nil =>
    show objGetD [(k1, v)] k = objGetD [] k
    rw [objGetD_cons]
    simp [hk1k, objGetD]
  | cons f fs ih =>
    show objGetD (if (f.1 == k1) = true then (k1, v) :: fs else f :: objSet fs k1 v) k = _
    cases h : f.1 == k1
    · simp only [Bool.false_eq_true, if_false]
      rw [objGetD_cons, objGetD_cons, ih]
    · simp only [if_true]
      rw [objGetD_cons, objGetD_cons]
      have h2 : (f.1 == k) = false := by
        rw [beq_iff_eq] at h
        rw [h]; exact hk1k
      simp [hk1k, h2]

theorem mergeFieldsVal_notin (ts : List (String × Val)) :
    ∀ (ss dest : List (String × Val)) (k : String), k ∉ ss.map Prod.fst →
      objGetD (mergeFieldsVal ts dest ss) k = objGetD dest k := by
  intro ss
  induction ss with
  | nil => intro dest k _; rfl
  | cons f ss ih =>
    intro dest k h
    cases f with
    | mk k1 sv =>
      simp only [List.map_cons, List.mem_cons] at h
      push_neg at h
      obtain ⟨h1, h2⟩ := h
      simp only [mergeFieldsVal]
      rw [ih _ k h2, objGetD_objSet_other _ _ _ _ (fun he => h1 he.symm)]

theorem mergeFieldsVal_leaf (ts : List (String × Val)) :
    ∀ (ss dest : List (String × Val)) (k : String) (v : Val),
      (ss.map Prod.fst).Nodup → (k, v) ∈ ss → isMergeableVal v = false →
      objGetD (mergeFieldsVal ts dest ss) k = v := by
  intro ss
  induction ss with
  | nil => simp
  | cons f ss ih =>
    intro dest k v hnd hmem hsc
    cases f with
    | mk k1 sv =>
      simp only [List.map_cons, List.nodup_cons] at hnd
      obtain ⟨hk1, hnd⟩ := hnd
      rcases List.mem_cons.mp hmem with heq | hmem2
      · obtain ⟨hk, hv⟩ := Prod.mk.injEq .. ▸ heq
        subst hk hv
        simp only [mergeFieldsVal, hsc, Bool.and_false, Bool.false_eq_true, if_false]
        rw [mergeFieldsVal_notin ts ss _ k hk1]
        exact objGetD_objSet_same dest k v
      · simp only [mergeFieldsVal]
        exact ih _ k v hnd hmem2 hsc

theorem valBeq_vbool_iff (v : Val) (b : Bool) : valBeq v (.vbool b) = true ↔ v = .vbool b := by
  cases v <;> simp only [valBeq] <;> simp

theorem mergeArrayItems_getD (ns ms : List Val) (j : Nat)
    (hj : j < max ms.length ns.length) :
    (mergeArrayItems ns ms).getD j .vundefined = mergeItemAt ns ms j := by
  simp [mergeArrayItems, List.getD, List.getElem?_map, List.getElem?_range, hj]

/-- C5: merging an ordered-sequence unknown marker `ms` into an
ordered-sequence current new value `ns` produces max(len ms, len ns)
elements; at each index a scalar marker element replaces the new
element outright, except that a `false` marker element with a non-null
new element keeps the new element unchanged, and a structural marker
element is deep-merged into the new element — with the marker's
non-mergeable (leaf) values winning on key collision, as the last
conjunct states for the object merge. -/
theorem c5_sequence_merge :
    (∀ ms ns : List Val, (mergeArrayItems ns ms).length = max ms.length ns.length) ∧
    (∀ (ms ns : List Val) (j : Nat), j < max ms.length ns.length →
      (isScalarTypeof (undefToEmpty (ms.getD j .vundefined)) = true →
        (valBeq (undefToEmpty (ms.getD j .vundefined)) (.vbool false) &&
         !(valBeq (undefToEmpty (ns.getD j .vundefined)) .vnull)) = false →
        (mergeArrayItems ns ms).getD j .vundefined = undefToEmpty (ms.getD j .vundefined)) ∧
      ((valBeq (undefToEmpty (ms.getD j .vundefined)) (.vbool false) &&
        !(valBeq (undefToEmpty (ns.getD j .vundefined)) .vnull)) = true →
        (mergeArrayItems ns ms).getD j .vundefined = undefToEmpty (ns.getD j .vundefined)) ∧
      (isScalarTypeof (undefToEmpty (ms.getD j .vundefined)) = false →
        (mergeArrayItems ns ms).getD j .vundefined =
          deepmergeVal (undefToEmpty (ns.getD j .vundefined))
            (undefToEmpty (ms.getD j .vundefined)))) ∧
    (∀ (ts ss : List (String × Val)) (k : String) (v : Val),
      (ss.map Prod.fst).Nodup → (k, v) ∈ ss → isMergeableVal v = false →
      deepmergeVal (.vobj ts) (.vobj ss) = .vobj (mergeFieldsVal ts ts ss) ∧
      objGetD (mergeFieldsVal ts ts ss) k = v) := by
  refine ⟨?_, ?_, ?_⟩
  · intro ms ns
    simp [mergeArrayItems]
  · intro ms ns j hj
    refine ⟨?_, ?_, ?_⟩
    · intro hsc hfb
      rw [mergeArrayItems_getD ns ms j hj]
      simp only [mergeItemAt, hsc, hfb, Bool.false_eq_true, if_false, if_true]
    · intro hfb
      have hsc : isScalarTypeof (undefToEmpty (ms.getD j .vundefined)) = true := by
        rw [Bool.and_eq_true] at hfb
        rw [(valBeq_vbool_iff _ _).mp hfb.1]
        rfl
      rw [mergeArrayItems_getD ns ms j hj]
      simp only [mergeItemAt, hsc, hfb, if_true]
    · intro hsc
      rw [mergeArrayItems_getD ns ms j hj]
      simp only [mergeItemAt, hsc, Bool.false_eq_true, if_false]
  · intro ts ss k v hnd hmem hsc
    exact ⟨rfl, mergeFieldsVal_leaf ts ss ts k v hnd hmem hsc⟩

theorem c5_sequence_merge_witness :
    (mergeArrayItems [.vstr "b", .vstr "c"]
      [.vstr "a", .vbool false, .vobj [("x", .vnum 1)]]).length = 3 ∧
    (mergeArrayItems [.vstr "b", .vstr "c"]
      [.vstr "a", .vbool false, .vobj [("x", .vnum 1)]]).getD 0 .vundefined = .vstr "a" ∧
    (mergeArrayItems [.vstr "b", .vstr "c"]
      [.vstr "a", .vbool false, .vobj [("x", .vnum 1)]]).getD 1 .vundefined = .vstr "c" ∧
    (mergeArrayItems [.vstr "b", .vstr "c"]
      [.vstr "a", .vbool false, .vobj [("x", .vnum 1)]]).getD 2 .vundefined =
      deepmergeVal (.vobj []) (.vobj [("x", .vnum 1)]) ∧
    objGetD (mergeFieldsVal [("x", .vnum 0)] [("x", .vnum 0)] [("x", .vnum 1)]) "x" =
      .vnum 1 :=
  ⟨c5_sequence_merge.1 [.vstr "a", .vbool false, .vobj [("x", .vnum 1)]]
      [.vstr "b", .vstr "c"],
   ((c5_sequence_merge.2.1 [.vstr "a", .vbool false, .vobj [("x", .vnum 1)]]
      [.vstr "b", .vstr "c"] 0 (by decide)).1 rfl rfl),
   ((c5_sequence_merge.2.1 [.vstr "a", .vbool false, .vobj [("x", .vnum 1)]]
      [.vstr "b", .vstr "c"] 1 (by decide)).2.1 rfl),
   ((c5_sequence_merge.2.1 [.vstr "a", .vbool false, .vobj [("x", .vnum 1)]]
      [.vstr "b", .vstr "c"] 2 (by decide)).2.2 rfl),
   (c5_sequence_merge.2.2 [("x", .vnum 0)] [("x", .vnum 1)] "x" (.vnum 1)
      (by decide) (List.Mem.head _) rfl).2⟩

theorem combineKeys_aux (ks : List String) :
    ∀ acc : List String, acc.Nodup →
      (ks.foldl (fun acc k => if acc.contains k then acc else acc ++ [k]) acc).Nodup ∧
      ∀ k, k ∈ ks.foldl (fun acc k => if acc.contains k then acc else acc ++ [k]) acc ↔
        (k ∈ acc ∨ k ∈ ks) := by
  induction ks with
  | nil =>
    intro acc h
    simpa using h
  | cons k0 ks ih =>
    intro acc hnd
    simp only [List.foldl_cons]
    cases hc : acc.contains k0
    · simp only [Bool.false_eq_true, if_false]
      have hk0 : k0 ∉ acc := by
        intro hm
        rw [(containsStr_iff acc k0).mpr hm] at hc
        exact Bool.noConfusion hc
      have hnd2 : (acc ++ [k0]).Nodup := by
        simp [List.nodup_append, hnd, hk0]
      obtain ⟨h1, h2⟩ := ih (acc ++ [k0]) hnd2
      refine ⟨h1, fun k => ?_⟩
      rw [h2]
      simp only [List.mem_append, List.mem_singleton, List.mem_cons]
      tauto
    · simp only [if_true]
      have hk0 : k0 ∈ acc := (containsStr_iff acc k0).mp hc
      obtain ⟨h1, h2⟩ := ih acc hnd
      refine ⟨h1, fun k => ?_⟩
      rw [h2]
      simp only [List.mem_cons]
      constructor
      · rintro (h | h)
        · exact Or.inl h
        · exact Or.inr (Or.inr h)
      · rintro (h | h | h)
        · exact Or.inl h
        · exact Or.inl (h ▸ hk0)
        · exact Or.inr h

theorem combineKeys_nodup (ks : List String) : (combineKeys ks).Nodup :=
  (combineKeys_aux ks [] (by simp)).1

theorem combineKeys_mem (ks : List String) (k : String) : k ∈ combineKeys ks ↔ k ∈ ks := by
  have h := (combineKeys_aux ks [] (by simp)).2 k
  simpa [combineKeys] using h

theorem jsKeysE_ok (v : Val) (ks : List String) (h : jsKeysE v = .ok ks) : ks = jsKeys v := by
  cases v <;> simp [jsKeysE] at h <;> simp [h]

theorem diffFold_ok_keys (o n a : Val) :
    ∀ (ks : List String) (acc : List (String × DiffRec)) (lg ds2lg : List String)
      (ds : List (String × DiffRec)),
      diffFold o n a ks acc lg = .ok (ds, ds2lg) →
      ds.map Prod.fst = acc.map Prod.fst ++ ks := by
  intro ks
  induction ks with
  | nil =>
    intro acc lg ds2lg ds h
    simp only [diffFold, Except.ok.injEq, Prod.mk.injEq] at h
    simp [← h.1]
  | cons k0 ks ih =>
    intro acc lg ds2lg ds h
    simp only [diffFold] at h
    cases h1 : resolveOld o k0 with
    | error e => simp [h1] at h
    | ok ov =>
      simp only [h1] at h
      cases h2 : resolveNew n k0 with
      | error e => simp [h2] at h
      | ok nv0 =>
        simp only [h2] at h
        cases h3 : propAccess a k0 with
        | error e => simp [h3] at h
        | ok mv =>
          simp only [h3] at h
          have := ih (acc ++ [(k0, ⟨ov, (mergeUnknown k0 nv0 mv).1⟩)])
            (lg ++ (mergeUnknown k0 nv0 mv).2) ds2lg ds h
          simpa using this

/-- C7 counterexample: for a data template_file resource the key "id"
of the passed unknown-marker map is deleted before the key union is
formed, so the returned diff set carries no record for it although it
is present in one of the three maps as passed. -/
theorem c7_counterexample :
    getAttributeDiffs .vnull .vnull (.vobj [("id", .vbool true)])
      (.vobj [("mode", .vstr "data"), ("type", .vstr "template_file")]) =
      .ok ([], .vobj [], []) ∧
    jsKeys (.vobj [("id", .vbool true)]) = ["id"] :=
  ⟨rfl, rfl⟩

/-- C7 amended: whenever the Attribute Diff Builder returns, its diff
set carries exactly one record per attribute key present in the
old-state map, the new-state map, or the unknown-marker map *after*
the template-resource pruning (the marker map the call also returns):
the result's key list is duplicate-free and its members are exactly
that union. -/
theorem c7_amended (n o a r : Val) (diffs : List (String × DiffRec)) (af : Val)
    (lg : List String)
    (hok : getAttributeDiffs n o a r = .ok (diffs, af, lg)) :
    (diffs.map Prod.fst).Nodup ∧
    ∀ k, k ∈ diffs.map Prod.fst ↔
      (k ∈ (if looseNull o then [] else jsKeys o) ∨
       k ∈ (if looseNull n then [] else jsKeys n) ∨ k ∈ jsKeys af) := by
  unfold getAttributeDiffs at hok
  cases h1 : isTemplateDataResource r with
  | error e => simp [h1] at hok
  | ok isTpl =>
    simp only [h1] at hok
    cases h2 : deleteTemplateKeys isTpl a with
    | error e => simp [h2] at hok
    | ok afterSt =>
      simp only [h2] at hok
      cases h3 : jsKeysE afterSt with
      | error e => simp [h3] at hok
      | ok afterKeys =>
        simp only [h3] at hok
        cases h4 : diffFold o n afterSt
            (combineKeys (((if looseNull o then [] else jsKeys o) ++
              (if looseNull n then [] else jsKeys n)) ++ afterKeys)) [] [] with
        | error e =>
          rw [h4] at hok
          simp at hok
        | ok p =>
          obtain ⟨ds, lg2⟩ := p
          simp only [h4, Except.ok.injEq, Prod.mk.injEq] at hok
          obtain ⟨h5, h6, h7⟩ := hok
          have hkeys := diffFold_ok_keys o n afterSt _ [] [] lg2 ds h4
          simp only [List.map_nil, List.nil_append] at hkeys
          rw [← h5, ← h6, hkeys]
          have hafter := jsKeysE_ok afterSt afterKeys h3
          subst hafter
          refine ⟨combineKeys_nodup _, fun k => ?_⟩
          rw [combineKeys_mem]
          simp [List.mem_append, or_assoc]

theorem c7_amended_witness :
    (([("a", (⟨.vnum 2, .vnull⟩ : DiffRec)), ("b", ⟨.vnull, .vnum 1⟩),
       ("c", ⟨.vnull, .vstr KNOWN_AFTER_APPLY⟩)].map Prod.fst).Nodup) ∧
    ("c" ∈ [("a", (⟨.vnum 2, .vnull⟩ : DiffRec)), ("b", ⟨.vnull, .vnum 1⟩),
       ("c", ⟨.vnull, .vstr KNOWN_AFTER_APPLY⟩)].map Prod.fst) :=
  have h := c7_amended (.vobj [("b", .vnum 1)]) (.vobj [("a", .vnum 2)])
    (.vobj [("c", .vbool true)]) (.vobj [])
    [("a", ⟨.vnum 2, .vnull⟩), ("b", ⟨.vnull, .vnum 1⟩),
     ("c", ⟨.vnull, .vstr KNOWN_AFTER_APPLY⟩)]
    (.vobj [("c", .vbool true)]) [] rfl
  ⟨h.1, (h.2 "c").mpr (Or.inr (Or.inr (by simp [jsKeys])))⟩

/-- C9 counterexample: processing a data template_file resource whose
unknown-marker map carries the key "rendered" hands back a pruned
marker map — the `delete` statements of getAttributeDiffs modify the
map in place, so the after_unknown data of this ResourceChange is not
the same after the call as before it. -/
theorem c9_counterexample :
    getAttributeDiffs .vnull .vnull (.vobj [("rendered", .vbool true)])
      (.vobj [("mode", .vstr "data"), ("type", .vstr "template_file")]) =
      .ok ([], .vobj [], []) ∧
    valBeq (.vobj []) (.vobj [("rendered", .vbool true)]) = false :=
  ⟨rfl, rfl⟩

/-- C9 amended: the Attribute Diff Builder leaves the before, after and
after_unknown data of the processed ResourceChange unmodified except
for data template_file resources, whose unknown-marker map has its
`id` and `rendered` keys deleted in place; in particular, for every
resource that is not a data template_file resource the marker map
handed back equals the one passed in (and the embedding threads no
state for the other two maps because the source never writes to
them). -/
theorem c9_amended (n o a r : Val) (diffs : List (String × DiffRec)) (af : Val)
    (lg : List String)
    (hguard : isTemplateDataResource r = .ok false)
    (hok : getAttributeDiffs n o a r = .ok (diffs, af, lg)) : af = a := by
  unfold getAttributeDiffs at hok
  simp only [hguard] at hok
  have hdel : deleteTemplateKeys false a = .ok a := rfl
  simp only [hdel] at hok
  cases h3 : jsKeysE a with
  | error e => rw [h3] at hok; simp at hok
  | ok afterKeys =>
    simp only [h3] at hok
    cases h4 : diffFold o n a
        (combineKeys (((if looseNull o then [] else jsKeys o) ++
          (if looseNull n then [] else jsKeys n)) ++ afterKeys)) [] [] with
    | error e => rw [h4] at hok; simp at hok
    | ok p =>
      obtain ⟨ds, lg2⟩ := p
      simp only [h4, Except.ok.injEq, Prod.mk.injEq] at hok
      exact hok.2.1.symm

theorem c9_amended_witness :
    (Val.vobj [("x", .vbool true)]) = .vobj [("x", .vbool true)] :=
  c9_amended (.vobj []) .vnull (.vobj [("x", .vbool true)])
    (.vobj [("mode", .vstr "managed")])
    [("x", ⟨.vnull, .vstr KNOWN_AFTER_APPLY⟩)] (.vobj [("x", .vbool true)]) [] rfl rfl

theorem propAccess_isOk (o : Val) (k : String) (h : looseNull o = false) :
    ∃ w, propAccess o k = .ok w := by
  cases o with
  | vnull => simp [looseNull, valBeq] at h
  | vundefined => simp [looseNull, valBeq] at h
  | vbool b => exact ⟨_, rfl⟩
  | vnum m => exact ⟨_, rfl⟩
  | vstr s => exact ⟨_, rfl⟩
  | varr xs => exact ⟨_, rfl⟩
  | vobj fs => exact ⟨_, rfl⟩

theorem resolveOld_isOk (o : Val) (k : String) : ∃ v, resolveOld o k = .ok v := by
  unfold resolveOld
  cases h : looseNull o with
  | true =>
    simp only [h, if_true]
    exact ⟨_, rfl⟩
  | false =>
    obtain ⟨w, hw⟩ := propAccess_isOk o k h
    simp only [h, Bool.false_eq_true, if_false, hw]
    split
    · exact ⟨_, rfl⟩
    · exact ⟨_, rfl⟩

theorem resolveNew_on_missing (k : String) : resolveNew .vundefined k = .error .typeError := rfl

theorem diffFold_undef_errors (o a : Val) (k0 : String) (ks : List String)
    (acc : List (String × DiffRec)) (lg : List String) :
    diffFold o .vundefined a (k0 :: ks) acc lg = .error .typeError := by
  obtain ⟨v, hv⟩ := resolveOld_isOk o k0
  simp only [diffFold, hv, resolveNew_on_missing]

theorem diffFold_null_ok (o : Val) (ho : looseNull o = true) (fs : List (String × Val)) :
    ∀ (ks : List String) (acc : List (String × DiffRec)) (lg : List String),
      ∃ ds lg2, diffFold o .vnull (.vobj fs) ks acc lg = .ok (ds, lg2) ∧
        ∀ p ∈ ds, p ∈ acc ∨ p.2.oldValue = .vnull := by
  intro ks
  induction ks with
  | nil =>
    intro acc lg
    exact ⟨acc, lg, rfl, fun p hp => Or.inl hp⟩
  | cons k0 ks ih =>
    intro acc lg
    have hro : resolveOld o k0 = .ok .vnull := by
      unfold resolveOld
      simp only [ho, if_true]
    have hrn : resolveNew .vnull k0 = .ok .vnull := rfl
    have hpa : propAccess (.vobj fs) k0 = .ok (objGetD fs k0) := rfl
    obtain ⟨ds, lg2, hfold, hmem⟩ :=
      ih (acc ++ [(k0, ⟨.vnull, (mergeUnknown k0 .vnull (objGetD fs k0)).1⟩)])
         (lg ++ (mergeUnknown k0 .vnull (objGetD fs k0)).2)
    refine ⟨ds, lg2, ?_, ?_⟩
    · simp only [diffFold, hro, hrn, hpa]
      exact hfold
    · intro p hp
      rcases hmem p hp with hin | hnull
      · rcases List.mem_append.mp hin with hmem2 | hmem2
        · exact Or.inl hmem2
        · right
          simp only [List.mem_singleton] at hmem2
          subst hmem2
          rfl
      · exact Or.inr hnull

theorem isTemplateDataResource_vobj (rf : List (String × Val)) :
    isTemplateDataResource (.vobj rf) =
      .ok (valBeq (objGetD rf "mode") (.vstr "data") &&
           valBeq (objGetD rf "type") (.vstr "template_file")) := by
  unfold isTemplateDataResource
  rw [propAccess_vobj]
  cases h : valBeq (objGetD rf "mode") (.vstr "data")
  · simp [h]
  · simp [h, propAccess_vobj]

/-- C10 counterexample: an `undefined` new-state map is not tolerated:
with one marker key present the per-key loop evaluates
`newState[key]` on `undefined` and throws a TypeError, although the
claim says null and undefined new-state maps are both treated as
empty. -/
theorem c10_counterexample :
    getAttributeDiffs .vundefined .vnull (.vobj [("a", .vbool true)])
      (.vobj [("mode", .vstr "managed"), ("type", .vstr "aws_instance")]) =
      .error .typeError :=
  rfl

/-- C10 amended: the Attribute Diff Builder treats a null or undefined
old-state map and a *null* new-state map as empty (every record's old
value resolves to null, first conjunct); a null or undefined
unknown-marker map always throws a TypeError (second conjunct); and an
*undefined* new-state map is not tolerated — as soon as one attribute
key exists, resolving its new value accesses a property of
`undefined` and throws a TypeError (third conjunct). -/
theorem c10_amended :
    (∀ (o : Val) (fs rf : List (String × Val)), looseNull o = true →
      ∃ out, getAttributeDiffs .vnull o (.vobj fs) (.vobj rf) = .ok out ∧
        ∀ p ∈ out.1, p.2.oldValue = .vnull) ∧
    (∀ (n o af : Val) (rf : List (String × Val)), (af = .vnull ∨ af = .vundefined) →
      getAttributeDiffs n o af (.vobj rf) = .error .typeError) ∧
    (∀ (o : Val) (k : String) (w : Val) (fs rf : List (String × Val)),
      valBeq (objGetD rf "mode") (.vstr "data") = false →
      getAttributeDiffs .vundefined o (.vobj ((k, w) :: fs)) (.vobj rf) =
        .error .typeError) := by
  refine ⟨?_, ?_, ?_⟩
  · intro o fs rf ho
    unfold getAttributeDiffs
    rw [isTemplateDataResource_vobj]
    cases hb : (valBeq (objGetD rf "mode") (.vstr "data") &&
        valBeq (objGetD rf "type") (.vstr "template_file")) with
    | false =>
      have hdel : deleteTemplateKeys false (.vobj fs) = .ok (.vobj fs) := rfl
      simp only [hdel]
      obtain ⟨ds, lg2, hfold, hmem⟩ := diffFold_null_ok o ho fs
        (combineKeys (((if looseNull o then [] else jsKeys o) ++
          (if looseNull (Val.vnull) then [] else jsKeys .vnull)) ++ jsKeys (.vobj fs))) [] []
      refine ⟨(ds, .vobj fs, lg2), ?_, ?_⟩
      · simp only [jsKeysE, hfold]
      · intro p hp
        rcases hmem p hp with h | h
        · simp at h
        · exact h
    | true =>
      have hdel : ∃ fs2, deleteTemplateKeys true (.vobj fs) = .ok (.vobj fs2) :=
        ⟨_, rfl⟩
      obtain ⟨fs2, hdel⟩ := hdel
      simp only [hdel]
      obtain ⟨ds, lg2, hfold, hmem⟩ := diffFold_null_ok o ho fs2
        (combineKeys (((if looseNull o then [] else jsKeys o) ++
          (if looseNull (Val.vnull) then [] else jsKeys .vnull)) ++ jsKeys (.vobj fs2))) [] []
      refine ⟨(ds, .vobj fs2, lg2), ?_, ?_⟩
      · simp only [jsKeysE, hfold]
      · intro p hp
        rcases hmem p hp with h | h
        · simp at h
        · exact h
  · intro n o af rf haf
    unfold getAttributeDiffs
    rw [isTemplateDataResource_vobj]
    rcases haf with rfl | rfl <;>
      cases hb : (valBeq (objGetD rf "mode") (.vstr "data") &&
          valBeq (objGetD rf "type") (.vstr "template_file")) <;>
        simp [deleteTemplateKeys, deleteFieldE, jsKeysE]
  · intro o k w fs rf hmode
    unfold getAttributeDiffs
    rw [isTemplateDataResource_vobj, hmode]
    simp only [Bool.false_and]
    have hdel : deleteTemplateKeys false (.vobj ((k, w) :: fs)) =
        .ok (.vobj ((k, w) :: fs)) := rfl
    simp only [hdel, jsKeysE]
    have hkmem : k ∈ combineKeys (((if looseNull o then [] else jsKeys o) ++
        (if looseNull (Val.vundefined) then [] else jsKeys .vundefined)) ++
        jsKeys (.vobj ((k, w) :: fs))) := by
      rw [combineKeys_mem]
      simp [jsKeys]
    obtain ⟨k0, ks2, hcons⟩ :=
      List.exists_cons_of_ne_nil (List.ne_nil_of_mem hkmem)
    rw [hcons, diffFold_undef_errors]

theorem c10_amended_witness :
    (∃ out, getAttributeDiffs .vnull .vnull (.vobj [("a", .vbool true)]) (.vobj []) =
        .ok out ∧ ∀ p ∈ out.1, p.2.oldValue = .vnull) ∧
    getAttributeDiffs .vnull .vnull .vnull (.vobj []) = .error .typeError ∧
    getAttributeDiffs .vundefined .vnull (.vobj [("a", .vbool true)]) (.vobj []) =
      .error .typeError :=
  ⟨c10_amended.1 .vnull [("a", .vbool true)] [] rfl,
   c10_amended.2.1 .vnull .vnull .vnull [] (Or.inl rfl),
   c10_amended.2.2 .vnull "a" (.vbool true) [] [] rfl⟩
